import Mathlib

/-!
Shallow embedding of the scout-v2 investigation orchestrator.

The embedded code is `src/graph.py` (the phased LangGraph investigation
loop: agent_node, tools_node, should_continue, run_investigation), the
credential gates of the tool factories in
`src/apps/agent/src/tools/datadog.py`, `src/apps/agent/src/tools/github.py`,
`src/agent/src/tools/slack.py`, and the summary scan of the deep-agent
variant `src/apps/agent/src/graph.py`.

The language-model call and the external HTTP calls are abstracted as
oracle functions supplied through an environment record; everything the
orchestrator itself computes (state updates, phase schedule, evidence
merging, routing, result assembly) is translated directly from the source.
-/

namespace Scout

/-- Investigation phases (graph.py: `phase: str  # triage | changes | hypothesis | conclusion`). -/
inductive Phase
  | triage
  | changes
  | hypothesis
  | conclusion
deriving DecidableEq, Repr

/-- Numeric rank of a phase in the order triage < changes < hypothesis < conclusion. -/
def Phase.idx : Phase → Nat
  | .triage => 0
  | .changes => 1
  | .hypothesis => 2
  | .conclusion => 3

/-- Deployment record as accumulated in `recent_deployments` (graph.py).
In the source these are Python dicts produced by `get_recent_deployments`
(fields sha, created_at, minutes_ago, ...); the merge in `tools_node`
only uses structural equality on the record, which the derived
`DecidableEq` provides.  `minutesAgo` is kept so that recency of a record
is expressible. -/
structure Deployment where
  sha : String
  minutesAgo : Nat
deriving DecidableEq, Repr

/-- A tool-call request attached to an assistant message.  `should_continue`
only inspects whether the list of tool calls is empty, so the arguments are
not modelled beyond the tool name. -/
structure ToolCall where
  name : String
deriving DecidableEq, Repr

/-- Message log entries (LangChain System/Human/AI/Tool messages).
For a tool-result message, `parsedDeployments` records the outcome of the
`json.loads` + `"deployments" in content` probe that `tools_node` performs
on the message content: `some ds` when the content parses to a dict with a
`deployments` list, `none` otherwise (parse failure or no such field). -/
inductive Message
  | system (content : String)
  | human (content : String)
  | ai (content : String) (toolCalls : List ToolCall)
  | toolResult (content : String) (parsedDeployments : Option (List Deployment))
deriving DecidableEq, Repr

/-- Text content of a message (every LangChain message has a `.content`). -/
def Message.contentOf : Message → String
  | .system c => c
  | .human c => c
  | .ai c _ => c
  | .toolResult c _ => c

/-- Tool calls carried by a message; non-assistant messages carry none
(Python: `getattr(msg, "tool_calls", None)` yields a falsy value). -/
def Message.toolCallsOf : Message → List ToolCall
  | .ai _ tcs => tcs
  | _ => []

/-- Alert context dict: `{alert_name, service, severity, message, ...}`.
Absent keys are `none`; a present-but-empty string is falsy in Python,
which `seedAffected` reproduces. -/
structure AlertContext where
  alertName : Option String
  service : Option String
  severity : Option String
  message : Option String
deriving DecidableEq, Repr

/-- Default iteration budget (graph.py: `MAX_ITERATIONS = 15`). -/
def MAX_ITERATIONS : Nat := 15

/-- AgentState TypedDict from graph.py, restricted to the fields the
control loop reads or writes.  The credential fields only select which
tools exist and are absorbed into the environment oracle. -/
structure AgentState where
  messages : List Message
  investigationId : String
  orgId : String
  alertContext : AlertContext
  phase : Phase
  iteration : Nat
  maxIterations : Nat
  recentDeployments : List Deployment
  affectedServices : List String
deriving DecidableEq, Repr

/-- Phase-transition block of `agent_node` (graph.py lines 230-237):
an if/elif chain on the phase read from the state and the iteration count
read at the start of the node (the post-increment count produced by the
previous cycle). -/
def advancePhase (phase : Phase) (iteration : Nat) : Phase :=
  if phase = .triage ∧ 2 ≤ iteration then .changes
  else if phase = .changes ∧ 5 ≤ iteration then .hypothesis
  else if phase = .hypothesis ∧ 10 ≤ iteration then .conclusion
  else phase

/-- State delta returned by `agent_node` (graph.py lines 239-243) combined
with the `add_messages` reducer: append the model response, increment the
iteration counter, recompute the phase.  All other fields are unchanged
because the returned dict has no keys for them. -/
def agentUpdate (s : AgentState) (response : Message) : AgentState :=
  { s with
    messages := s.messages ++ [response]
    iteration := s.iteration + 1
    phase := advancePhase s.phase s.iteration }

/-- Deployment probe on one result message (graph.py lines 260-268):
the parse outcome of the message content. -/
def Message.toolPayload : Message → Option (List Deployment)
  | .toolResult _ parsed => parsed
  | _ => none

/-- Inner merge of `tools_node` (graph.py lines 263-266): for each entry of
the `deployments` field, append it only if not already present
(structural equality). -/
def mergeDeployments (acc : List Deployment) (ds : List Deployment) : List Deployment :=
  ds.foldl (fun acc d => if d ∈ acc then acc else acc ++ [d]) acc

/-- State delta of `tools_node` (graph.py lines 249-273) combined with the
`add_messages` reducer, given the messages produced by the ToolNode run:
append the tool-result messages, fold the deployment merge over every
result message, and truncate the accumulated list to its first 20 entries
(`new_deployments[:20]`).  Other fields are unchanged. -/
def tools_node (s : AgentState) (resultMessages : List Message) : AgentState :=
  let newDeployments :=
    resultMessages.foldl
      (fun acc m =>
        match m.toolPayload with
        | some ds => mergeDeployments acc ds
        | none => acc)
      s.recentDeployments
  { s with
    messages := s.messages ++ resultMessages
    recentDeployments := newDeployments.take 20 }

/-- Routing outcomes of `should_continue` (graph.py lines 279-296);
`Route.stop` is the "end" branch. -/
inductive Route
  | tools
  | stop
deriving DecidableEq, Repr

/-- Check of graph.py lines 288-291: the last message exists, is an
AIMessage, and carries a non-empty tool_calls list. -/
def lastIsToolCallingAI (messages : List Message) : Bool :=
  match messages.getLast? with
  | some (.ai _ tcs) => !tcs.isEmpty
  | _ => false

/-- Conditional edge `should_continue` (graph.py lines 279-296): end when
the iteration budget is reached; route to tools when the last message is a
tool-call-bearing assistant message; otherwise end (the explicit
`phase == "conclusion"` check and the fallthrough both return "end"). -/
def should_continue (s : AgentState) : Route :=
  if s.maxIterations ≤ s.iteration then .stop
  else if lastIsToolCallingAI s.messages then .tools
  else if s.phase = .conclusion then .stop
  else .stop

/-- Environment for the two external effects of a cycle: the reasoning
step (`llm_with_tools.invoke`, which sees the whole state through the
context the node builds from it) and the ToolNode run.  A `.error` value
stands for a raised exception, which `run_investigation` catches at its
try/except boundary; tool-level failures are not exceptions but ordinary
`toolResult` messages. -/
structure Env where
  respond : AgentState → Except String (String × List ToolCall)
  runTools : AgentState → Except String (List Message)

/-- One run of `agent_node` (graph.py lines 172-243): invoke the reasoning
step on the state and apply the returned delta. -/
def agent_node (env : Env) (s : AgentState) : Except String AgentState :=
  (env.respond s).map fun r => agentUpdate s (.ai r.1 r.2)

/-- The compiled graph's execution (START → agent; agent —should_continue→
tools | END; tools → agent), with explicit fuel.  Returns `none` only when
the fuel runs out; otherwise the list of states observed after each agent
step (the trace) together with the final state or the escaped exception. -/
def runLoop (env : Env) : Nat → AgentState → Option (List AgentState × Except String AgentState)
  | 0, _ => none
  | fuel + 1, s =>
    match agent_node env s with
    | .error e => some ([], .error e)
    | .ok s1 =>
      match should_continue s1 with
      | .stop => some ([s1], .ok s1)
      | .tools =>
        match env.runTools s1 with
        | .error e => some ([s1], .error e)
        | .ok msgs =>
          match runLoop env fuel (tools_node s1 msgs) with
          | none => none
          | some (tr, r) => some (s1 :: tr, r)

/-- Seeding of `affected_services` (graph.py line 359):
`[alert_context.get("service")] if alert_context.get("service") else []`;
an absent key or an empty (falsy) string seeds the empty list. -/
def seedAffected (service : Option String) : List String :=
  match service with
  | some s => if s.isEmpty then [] else [s]
  | none => []

/-- Initial state built by `run_investigation` (graph.py lines 347-361). -/
def initialState (investigationId orgId : String) (alert : AlertContext) : AgentState :=
  { messages := []
    investigationId := investigationId
    orgId := orgId
    alertContext := alert
    phase := .triage
    iteration := 0
    maxIterations := MAX_ITERATIONS
    recentDeployments := []
    affectedServices := seedAffected alert.service }

/-- Qualification test of the summary scan in `run_investigation`
(graph.py lines 376-380): an assistant message with no tool calls whose
string content is longer than 50 characters; yields the content. -/
def finalSummaryOf (m : Message) : Option String :=
  match m with
  | .ai c tcs => if tcs = [] ∧ 50 < c.length then some c else none
  | _ => none

/-- Summary extraction of `run_investigation` (graph.py lines 372-380):
scan the log in reverse, pick the first qualifying assistant message,
fall back to the fixed default. -/
def extractSummary (messages : List Message) : String :=
  (messages.reverse.findSome? finalSummaryOf).getD "Investigation complete."

/-- Qualification test of the summary scan in the deep-agent variant
(src/apps/agent/src/graph.py lines 343-350): any message whose string
content is longer than 50 characters and whose tool_calls attribute is
absent or falsy — the message is not required to be an assistant message. -/
def appsSummaryOf (m : Message) : Option String :=
  if 50 < m.contentOf.length ∧ m.toolCallsOf = [] then some m.contentOf else none

/-- Summary extraction of the deep-agent variant's `run_investigation`
(src/apps/agent/src/graph.py lines 340-350). -/
def appsExtractSummary (messages : List Message) : String :=
  (messages.reverse.findSome? appsSummaryOf).getD "Investigation complete."

/-- Result dict of `run_investigation` (graph.py lines 363-389), with the
fields of both the failure and the success shape; a field that the
returned dict does not carry is `none`. -/
structure InvestigationResult where
  success : Bool
  summary : Option String
  error : Option String
  deploymentsFound : Option (List Deployment)
  toolCalls : Option Nat
  finalPhase : Option Phase
  durationMs : Nat
deriving DecidableEq, Repr

/-- Entry point `run_investigation` (graph.py lines 316-389): build the
initial state, run the graph, and either catch the escaped exception into
a failure dict or assemble the success dict from the final state.  Wall
clock time is abstracted as the `durationMs` argument.  The graph run is
given fuel `MAX_ITERATIONS + 1`, which the totality lemma shows is never
exhausted, so the fuel-out branch is dead code. -/
def run_investigation (env : Env) (investigationId orgId : String)
    (alert : AlertContext) (durationMs : Nat) : InvestigationResult :=
  match runLoop env (MAX_ITERATIONS + 1) (initialState investigationId orgId alert) with
  | some (_, .error e) =>
    { success := false
      summary := none
      error := some e
      deploymentsFound := none
      toolCalls := none
      finalPhase := none
      durationMs := durationMs }
  | some (_, .ok fin) =>
    { success := true
      summary := some (extractSummary fin.messages)
      error := none
      deploymentsFound := some fin.recentDeployments
      toolCalls := some fin.iteration
      finalPhase := some fin.phase
      durationMs := durationMs }
  | none =>
    { success := false
      summary := none
      error := some "recursion limit"
      deploymentsFound := none
      toolCalls := none
      finalPhase := none
      durationMs := durationMs }

/-! Tool credential gates.

Every tool factory (`create_datadog_tools`, `create_github_tools`,
`create_slack_tools`) closes each tool over the `credentials` argument and
each tool body starts with `if not credentials: return json.dumps({...})`,
a structured not-configured result.  The rest of each body is a try/except
whose except clause also returns a structured failure, so a tool
invocation never raises: each embedded tool is a total function into
`ToolResult`.  The external call performed when credentials are present is
abstracted as an oracle argument taking the credentials and the tool
arguments. -/

/-- Structured tool result, the parse of the JSON string every tool
returns: a `success` flag and, on failure, an `error` text.  Successful
payloads are not modelled beyond the flag. -/
structure ToolResult where
  success : Bool
  error : Option String
deriving DecidableEq, Repr

/-- Datadog credential bag (`api_key`, `app_key`, `site`). -/
structure DatadogCreds where
  apiKey : String
  appKey : String
  site : Option String
deriving DecidableEq, Repr

/-- GitHub App credential bag (`app_id`, `private_key`, `installation_id`). -/
structure GithubCreds where
  appId : String
  privateKey : String
  installationId : String
deriving DecidableEq, Repr

/-- Slack credential bag (`bot_token`, `channel_id`). -/
structure SlackCreds where
  botToken : String
  channelId : Option String
deriving DecidableEq, Repr

/-- Gate result of every Datadog tool (datadog.py lines 34-38 and the
identical gates at lines 94-97, 172-175, 236-239, 333-336). -/
def datadogNotConfigured : ToolResult :=
  { success := false
    error := some "Datadog not configured. Please add Datadog credentials (api_key, app_key) in integrations settings." }

/-- Gate result of every GitHub tool (github.py lines 39-43, 118-121, 208-211). -/
def githubNotConfigured : ToolResult :=
  { success := false
    error := some "GitHub not configured. Please add GitHub App credentials (app_id, private_key, installation_id) in integrations settings." }

/-- Gate result of every Slack tool (slack.py lines 44-48, 143-146). -/
def slackNotConfigured : ToolResult :=
  { success := false
    error := some "Slack not configured. Please add Slack credentials (bot_token, channel_id) in integrations settings." }

/-- datadog.py `get_monitor_details`. -/
def get_monitor_details (credentials : Option DatadogCreds)
    (api : DatadogCreds → Int → ToolResult) (monitor_id : Int) : ToolResult :=
  match credentials with
  | none => datadogNotConfigured
  | some creds => api creds monitor_id

/-- datadog.py `get_apm_service_summary`. -/
def get_apm_service_summary (credentials : Option DatadogCreds)
    (api : DatadogCreds → String → String → Nat → ToolResult)
    (service_name environment : String) (minutes_back : Nat) : ToolResult :=
  match credentials with
  | none => datadogNotConfigured
  | some creds => api creds service_name environment minutes_back

/-- datadog.py `query_metrics`. -/
def query_metrics (credentials : Option DatadogCreds)
    (api : DatadogCreds → String → Nat → ToolResult)
    (query : String) (minutes_back : Nat) : ToolResult :=
  match credentials with
  | none => datadogNotConfigured
  | some creds => api creds query minutes_back

/-- datadog.py `search_logs`. -/
def search_logs (credentials : Option DatadogCreds)
    (api : DatadogCreds → String → Nat → Nat → ToolResult)
    (query : String) (minutes_back limit : Nat) : ToolResult :=
  match credentials with
  | none => datadogNotConfigured
  | some creds => api creds query minutes_back limit

/-- datadog.py `get_datadog_events`. -/
def get_datadog_events (credentials : Option DatadogCreds)
    (api : DatadogCreds → Nat → Option (List String) → ToolResult)
    (hours_back : Nat) (tags : Option (List String)) : ToolResult :=
  match credentials with
  | none => datadogNotConfigured
  | some creds => api creds hours_back tags

/-- github.py `get_recent_deployments`. -/
def get_recent_deployments (credentials : Option GithubCreds)
    (api : GithubCreds → String → String → Nat → Option String → ToolResult)
    (owner repo : String) (hours_back : Nat) (environment : Option String) : ToolResult :=
  match credentials with
  | none => githubNotConfigured
  | some creds => api creds owner repo hours_back environment

/-- github.py `get_deployment_commits`. -/
def get_deployment_commits (credentials : Option GithubCreds)
    (api : GithubCreds → String → String → String → Option String → ToolResult)
    (owner repo sha : String) (compare_to : Option String) : ToolResult :=
  match credentials with
  | none => githubNotConfigured
  | some creds => api creds owner repo sha compare_to

/-- github.py `get_recent_commits`. -/
def get_recent_commits (credentials : Option GithubCreds)
    (api : GithubCreds → String → String → Nat → String → ToolResult)
    (owner repo : String) (hours_back : Nat) (branch : String) : ToolResult :=
  match credentials with
  | none => githubNotConfigured
  | some creds => api creds owner repo hours_back branch

/-- slack.py `send_investigation_result`; the argument record bundles
summary, root_cause, confidence, suggested_actions, channel_id and
datadog_link, none of which the gate inspects. -/
def send_investigation_result (credentials : Option SlackCreds)
    (api : SlackCreds → String → ToolResult) (summary : String) : ToolResult :=
  match credentials with
  | none => slackNotConfigured
  | some creds => api creds summary

/-- slack.py `send_investigation_update`. -/
def send_investigation_update (credentials : Option SlackCreds)
    (api : SlackCreds → String → String → ToolResult)
    (message phaseName : String) : ToolResult :=
  match credentials with
  | none => slackNotConfigured
  | some creds => api creds message phaseName

/-- Embedded text whose presence in every gate error the spec requires. -/
def notConfiguredMark : String := "not configured"

/-! Concrete sample data used by witnesses and counterexamples. -/

/-- Sample alert from the spec's end-to-end scenario. -/
def sampleAlert : AlertContext :=
  { alertName := some "High Latency P95>500ms"
    service := some "checkout"
    severity := some "P2"
    message := some "p95 latency above 500ms for 10 minutes" }

/-- Final answer emitted by the sample reasoning-step behavior. -/
def sampleAnswer : String :=
  "Root cause: deployment abc123 introduced added latency to the checkout service. Confidence: High."

/-- Reasoning-step behavior that immediately answers with a final message
and never requests tools. -/
def envFinal : Env :=
  { respond := fun _ => .ok (sampleAnswer, [])
    runTools := fun _ => .ok [] }

/-- Reasoning-step behavior that requests a tool on every cycle. -/
def envAlwaysTools : Env :=
  { respond := fun _ => .ok ("checking deployments", [⟨"get_recent_deployments"⟩])
    runTools := fun _ => .ok [.toolResult "no deployments" none] }

/-- Reasoning-step behavior whose invocation raises. -/
def envBoom : Env :=
  { respond := fun _ => .error "boom"
    runTools := fun _ => .ok [] }

/-- Initial state of the sample run. -/
def sampleState : AgentState := initialState "inv-1" "org-1" sampleAlert

/-- State after the single agent step of the `envFinal` run. -/
def sampleFinal : AgentState :=
  agentUpdate sampleState (.ai sampleAnswer [])

/-- State after one agent step that requested a tool call. -/
def sampleTools : AgentState :=
  agentUpdate sampleState (.ai "checking deployments" [⟨"get_recent_deployments"⟩])

/-- Twenty pairwise-distinct already-accumulated deployment records, all
at least 100 minutes old. -/
def oldBatch : List Deployment := (List.range 20).map fun i => ⟨"old", 100 + i⟩

/-- Five pairwise-distinct fresh deployment records, at most 5 minutes old. -/
def newBatch : List Deployment := (List.range 5).map fun i => ⟨"new", 1 + i⟩

/-- A fresh deployment record, more recent than every record of `oldBatch`. -/
def freshDeployment : Deployment := ⟨"new", 1⟩

/-- Sample state whose accumulated deployment list is already at the cap. -/
def fullState : AgentState := { sampleState with recentDeployments := oldBatch }

/-- Message log whose only assistant message is short but whose initial
user instruction is long. -/
def sampleLog : List Message :=
  [ .human "A Datadog alert has fired. Begin investigation of the checkout service latency regression now.",
    .ai "Ack." [] ]

/-! Helper lemmas. -/

theorem agentUpdate_fields (s : AgentState) (m : Message) :
    (agentUpdate s m).iteration = s.iteration + 1 ∧
    (agentUpdate s m).maxIterations = s.maxIterations ∧
    (agentUpdate s m).phase = advancePhase s.phase s.iteration ∧
    (agentUpdate s m).recentDeployments = s.recentDeployments ∧
    (agentUpdate s m).affectedServices = s.affectedServices ∧
    (agentUpdate s m).messages = s.messages ++ [m] :=
  ⟨rfl, rfl, rfl, rfl, rfl, rfl⟩

theorem tools_node_fields (s : AgentState) (msgs : List Message) :
    (tools_node s msgs).iteration = s.iteration ∧
    (tools_node s msgs).maxIterations = s.maxIterations ∧
    (tools_node s msgs).phase = s.phase ∧
    (tools_node s msgs).affectedServices = s.affectedServices :=
  ⟨rfl, rfl, rfl, rfl⟩

theorem agent_node_ok {env : Env} {s s1 : AgentState}
    (h : agent_node env s = .ok s1) :
    ∃ c tcs, env.respond s = .ok (c, tcs) ∧ s1 = agentUpdate s (.ai c tcs) := by
  cases hr : env.respond s with
  | error e => rw [agent_node, hr] at h; simp [Except.map] at h
  | ok p =>
    obtain ⟨c, tcs⟩ := p
    rw [agent_node, hr] at h
    simp [Except.map] at h
    exact ⟨c, tcs, hr ▸ rfl, h.symm⟩

theorem should_continue_eq_tools_iff (s : AgentState) :
    should_continue s = Route.tools ↔
      s.iteration < s.maxIterations ∧ lastIsToolCallingAI s.messages = true := by
  unfold should_continue
  split_ifs with h1 h2 <;> simp_all

theorem should_continue_eq_stop_iff (s : AgentState) :
    should_continue s = Route.stop ↔
      s.maxIterations ≤ s.iteration ∨ lastIsToolCallingAI s.messages = false := by
  unfold should_continue
  split_ifs with h1 h2 <;> simp_all

/-- The loop always produces a result once the fuel covers the remaining
iteration budget: every cycle increments the iteration counter and the
router ends the run as soon as the counter reaches the budget. -/
theorem runLoop_isSome (env : Env) : ∀ (fuel : Nat) (s : AgentState),
    1 ≤ fuel → s.maxIterations ≤ s.iteration + fuel →
    (runLoop env fuel s).isSome = true := by
  intro fuel
  induction fuel with
  | zero => intro s h _; omega
  | succ f ih =>
    intro s _ hbound
    simp only [runLoop]
    cases ha : agent_node env s with
    | error e => simp
    | ok s1 =>
      obtain ⟨c, tcs, hresp, hs1⟩ := agent_node_ok ha
      cases hc : should_continue s1 with
      | stop => simp [hc]
      | tools =>
        cases ht : env.runTools s1 with
        | error e => simp [hc, ht]
        | ok msgs =>
          have hlt : s1.iteration < s1.maxIterations :=
            ((should_continue_eq_tools_iff s1).mp hc).1
          have hi1 : s1.iteration = s.iteration + 1 := by rw [hs1]; rfl
          have hm1 : s1.maxIterations = s.maxIterations := by rw [hs1]; rfl
          have hrec := ih (tools_node s1 msgs)
            (by omega)
            (by
              have e1 : (tools_node s1 msgs).iteration = s1.iteration := rfl
              have e2 : (tools_node s1 msgs).maxIterations = s1.maxIterations := rfl
              omega)
          cases hrl : runLoop env f (tools_node s1 msgs) with
          | none => simp only [hrl] at hrec; simp at hrec
          | some pr => simp [hc, ht, hrl]

/-- The trace records one state per agent step, so its length is bounded
by the fuel. -/
theorem runLoop_length_le (env : Env) : ∀ (fuel : Nat) (s : AgentState)
    (tr : List AgentState) (r : Except String AgentState),
    runLoop env fuel s = some (tr, r) → tr.length ≤ fuel := by
  intro fuel
  induction fuel with
  | zero => intro s tr r h; simp [runLoop] at h
  | succ f ih =>
    intro s tr r h
    simp only [runLoop] at h
    cases ha : agent_node env s with
    | error e =>
      simp only [ha] at h; simp at h
      obtain ⟨rfl, rfl⟩ := h; simp
    | ok s1 =>
      simp only [ha] at h
      cases hc : should_continue s1 with
      | stop =>
        simp only [hc] at h; simp at h
        obtain ⟨rfl, rfl⟩ := h; simp
      | tools =>
        simp only [hc] at h
        cases ht : env.runTools s1 with
        | error e =>
          simp only [ht] at h; simp at h
          obtain ⟨rfl, rfl⟩ := h; simp
        | ok msgs =>
          simp only [ht] at h
          cases hrl : runLoop env f (tools_node s1 msgs) with
          | none => simp only [hrl] at h; simp at h
          | some pr =>
            obtain ⟨tr', r'⟩ := pr
            simp only [hrl] at h; simp at h
            obtain ⟨rfl, rfl⟩ := h
            have := ih (tools_node s1 msgs) tr' r' hrl
            simp; omega

/-- Every state recorded in the trace satisfies the budget invariant,
provided the loop was entered strictly below the budget. -/
theorem runLoop_iter_le (env : Env) : ∀ (fuel : Nat) (s : AgentState)
    (tr : List AgentState) (r : Except String AgentState),
    runLoop env fuel s = some (tr, r) → s.iteration < s.maxIterations →
    ∀ t ∈ tr, t.iteration ≤ t.maxIterations := by
  intro fuel
  induction fuel with
  | zero => intro s tr r h; simp [runLoop] at h
  | succ f ih =>
    intro s tr r h hlt
    simp only [runLoop] at h
    cases ha : agent_node env s with
    | error e =>
      simp only [ha] at h; simp at h
      obtain ⟨rfl, rfl⟩ := h; simp
    | ok s1 =>
      simp only [ha] at h
      obtain ⟨c, tcs, hresp, hs1⟩ := agent_node_ok ha
      have hi1 : s1.iteration = s.iteration + 1 := by rw [hs1]; rfl
      have hm1 : s1.maxIterations = s.maxIterations := by rw [hs1]; rfl
      have hs1le : s1.iteration ≤ s1.maxIterations := by omega
      cases hc : should_continue s1 with
      | stop =>
        simp only [hc] at h; simp at h
        obtain ⟨rfl, rfl⟩ := h
        intro t ht'
        simp at ht'; subst ht'; exact hs1le
      | tools =>
        simp only [hc] at h
        cases ht : env.runTools s1 with
        | error e =>
          simp only [ht] at h; simp at h
          obtain ⟨rfl, rfl⟩ := h
          intro t ht'
          simp at ht'; subst ht'; exact hs1le
        | ok msgs =>
          simp only [ht] at h
          cases hrl : runLoop env f (tools_node s1 msgs) with
          | none => simp only [hrl] at h; simp at h
          | some pr =>
            obtain ⟨tr', r'⟩ := pr
            simp only [hrl] at h; simp at h
            obtain ⟨rfl, rfl⟩ := h
            have hlt1 : s1.iteration < s1.maxIterations :=
              ((should_continue_eq_tools_iff s1).mp hc).1
            have hrec := ih (tools_node s1 msgs) tr' r' hrl
              (by
                have e1 : (tools_node s1 msgs).iteration = s1.iteration := rfl
                have e2 : (tools_node s1 msgs).maxIterations = s1.maxIterations := rfl
                omega)
            intro t ht'
            simp at ht'
            rcases ht' with rfl | ht'
            · exact hs1le
            · exact hrec t ht'

/-- Any property preserved by both node updates holds along the whole
trace and at the final state. -/
theorem runLoop_preserves (env : Env) (P : AgentState → Prop)
    (hA : ∀ s m, P s → P (agentUpdate s m))
    (hT : ∀ s msgs, P s → P (tools_node s msgs)) :
    ∀ (fuel : Nat) (s : AgentState) (tr : List AgentState)
      (r : Except String AgentState),
      runLoop env fuel s = some (tr, r) → P s →
      (∀ t ∈ tr, P t) ∧ (∀ fin, r = Except.ok fin → P fin) := by
  intro fuel
  induction fuel with
  | zero => intro s tr r h; simp [runLoop] at h
  | succ f ih =>
    intro s tr r h hP
    simp only [runLoop] at h
    cases ha : agent_node env s with
    | error e =>
      simp only [ha] at h; simp at h
      obtain ⟨rfl, rfl⟩ := h
      exact ⟨by simp, by simp⟩
    | ok s1 =>
      simp only [ha] at h
      obtain ⟨c, tcs, hresp, hs1⟩ := agent_node_ok ha
      have hP1 : P s1 := hs1 ▸ hA s (.ai c tcs) hP
      cases hc : should_continue s1 with
      | stop =>
        simp only [hc] at h; simp at h
        obtain ⟨rfl, rfl⟩ := h
        refine ⟨by simpa using hP1, ?_⟩
        intro fin hfin
        simp at hfin; subst hfin; exact hP1
      | tools =>
        simp only [hc] at h
        cases ht : env.runTools s1 with
        | error e =>
          simp only [ht] at h; simp at h
          obtain ⟨rfl, rfl⟩ := h
          exact ⟨by simpa using hP1, by simp⟩
        | ok msgs =>
          simp only [ht] at h
          cases hrl : runLoop env f (tools_node s1 msgs) with
          | none => simp only [hrl] at h; simp at h
          | some pr =>
            obtain ⟨tr', r'⟩ := pr
            simp only [hrl] at h; simp at h
            obtain ⟨rfl, rfl⟩ := h
            have hrec := ih (tools_node s1 msgs) tr' r' hrl (hT s1 msgs hP1)
            refine ⟨?_, hrec.2⟩
            intro t ht'
            simp at ht'
            rcases ht' with rfl | ht'
            · exact hP1
            · exact hrec.1 t ht'

/-- The phase schedule never moves a phase backwards. -/
theorem advancePhase_idx_le (p : Phase) (i : Nat) :
    p.idx ≤ (advancePhase p i).idx := by
  cases p <;> unfold advancePhase <;> split_ifs <;> simp_all [Phase.idx]

/-- Along any run, the phases of consecutive observed states never
regress: each agent step applies `advancePhase` and each tools step leaves
the phase unchanged. -/
theorem runLoop_phase_chain (env : Env) : ∀ (fuel : Nat) (s : AgentState)
    (tr : List AgentState) (r : Except String AgentState),
    runLoop env fuel s = some (tr, r) →
    List.Chain' (fun a b => a.phase.idx ≤ b.phase.idx) (s :: tr) := by
  intro fuel
  induction fuel with
  | zero => intro s tr r h; simp [runLoop] at h
  | succ f ih =>
    intro s tr r h
    simp only [runLoop] at h
    cases ha : agent_node env s with
    | error e =>
      simp only [ha] at h; simp at h
      obtain ⟨rfl, rfl⟩ := h; simp
    | ok s1 =>
      simp only [ha] at h
      obtain ⟨c, tcs, hresp, hs1⟩ := agent_node_ok ha
      have hle : s.phase.idx ≤ s1.phase.idx := by
        rw [hs1]
        exact advancePhase_idx_le s.phase s.iteration
      cases hc : should_continue s1 with
      | stop =>
        simp only [hc] at h; simp at h
        obtain ⟨rfl, rfl⟩ := h
        simp [List.chain'_cons', hle]
      | tools =>
        simp only [hc] at h
        cases ht : env.runTools s1 with
        | error e =>
          simp only [ht] at h; simp at h
          obtain ⟨rfl, rfl⟩ := h
          simp [List.chain'_cons', hle]
        | ok msgs =>
          simp only [ht] at h
          cases hrl : runLoop env f (tools_node s1 msgs) with
          | none => simp only [hrl] at h; simp at h
          | some pr =>
            obtain ⟨tr', r'⟩ := pr
            simp only [hrl] at h; simp at h
            obtain ⟨rfl, rfl⟩ := h
            have hch := ih (tools_node s1 msgs) tr' r' hrl
            rw [List.chain'_cons'] at hch ⊢
            refine ⟨by simpa using hle, ?_⟩
            rw [List.chain'_cons']
            have hphase : (tools_node s1 msgs).phase = s1.phase := rfl
            refine ⟨?_, hch.2⟩
            intro y hy
            have := hch.1 y hy
            rwa [hphase] at this

/-- The accumulated list is always a prefix of a merge result: the merge
only ever appends. -/
theorem mergeDeployments_starts_with (ds : List Deployment) :
    ∀ acc : List Deployment, acc <+: mergeDeployments acc ds := by
  induction ds with
  | nil => intro acc; simp [mergeDeployments]
  | cons d ds ih =>
    intro acc
    show acc <+: mergeDeployments (if d ∈ acc then acc else acc ++ [d]) ds
    by_cases hd : d ∈ acc
    · simpa [hd] using ih acc
    · simp only [hd, if_false]
      exact List.IsPrefix.trans ⟨[d], rfl⟩ (ih (acc ++ [d]))

/-- Merging a payload whose entries are all new and pairwise distinct
appends the payload verbatim. -/
theorem mergeDeployments_of_nodup (ds : List Deployment) :
    ∀ acc : List Deployment, (acc ++ ds).Nodup →
    mergeDeployments acc ds = acc ++ ds := by
  induction ds with
  | nil => intro acc _; simp [mergeDeployments]
  | cons d ds ih =>
    intro acc hnd
    have hd : d ∉ acc := by
      have h2 := List.nodup_middle.mp hnd
      have h3 : d ∉ acc ++ ds := (List.nodup_cons.mp h2).1
      exact fun hmem => h3 (List.mem_append_left _ hmem)
    show mergeDeployments (if d ∈ acc then acc else acc ++ [d]) ds = acc ++ d :: ds
    simp only [hd, if_false]
    have : (acc ++ [d] ++ ds).Nodup := by
      simpa [List.append_assoc] using hnd
    rw [ih (acc ++ [d]) this]
    simp

/-- The full per-tools-node deployment fold is the message-wise
composition of payload merges. -/
def foldPayloads (acc : List Deployment) (msgs : List Message) : List Deployment :=
  msgs.foldl
    (fun acc m =>
      match m.toolPayload with
      | some ds => mergeDeployments acc ds
      | none => acc)
    acc

theorem tools_node_recentDeployments (s : AgentState) (msgs : List Message) :
    (tools_node s msgs).recentDeployments
      = (foldPayloads s.recentDeployments msgs).take 20 := rfl

/-- The accumulated list is a prefix of the fold over any sequence of
result messages. -/
theorem foldPayloads_starts_with (msgs : List Message) :
    ∀ acc : List Deployment, acc <+: foldPayloads acc msgs := by
  induction msgs with
  | nil => intro acc; simp [foldPayloads]
  | cons m msgs ih =>
    intro acc
    show acc <+: foldPayloads (match m.toolPayload with
      | some ds => mergeDeployments acc ds
      | none => acc) msgs
    cases hp : m.toolPayload with
    | none => simpa using ih acc
    | some ds => exact (mergeDeployments_starts_with ds acc).trans (ih _)

/-- A prefix survives truncation when it is short enough. -/
theorem prefix_take_of_le {α : Type} {l₁ l₂ : List α} {n : Nat}
    (h : l₁ <+: l₂) (hn : l₁.length ≤ n) : l₁ <+: l₂.take n := by
  obtain ⟨t, rfl⟩ := h
  rw [List.take_append_eq_append_take, List.take_of_length_le hn]
  exact ⟨t.take (n - l₁.length), rfl⟩

/-- Generic first-hit characterisation of a reverse scan: if everything
before the hit fails the probe and the hit succeeds, the scan returns the
hit's value. -/
theorem findSome?_first_hit {α β : Type} (f : α → Option β)
    (l₁ l₂ : List α) (m : α) (b : β)
    (hmiss : ∀ x ∈ l₁, f x = none) (hhit : f m = some b) :
    (l₁ ++ m :: l₂).findSome? f = some b := by
  induction l₁ with
  | nil => simp [List.findSome?_cons, hhit]
  | cons a t ih =>
    simp only [List.cons_append, List.findSome?_cons, hmiss a (by simp)]
    exact ih fun x hx => hmiss x (by simp [hx])

/-- A scan over a list of all-missing entries finds nothing. -/
theorem findSome?_eq_none_of_all {α β : Type} (f : α → Option β)
    (l : List α) (hmiss : ∀ x ∈ l, f x = none) :
    l.findSome? f = none := by
  induction l with
  | nil => simp
  | cons a t ih =>
    simp only [List.findSome?_cons, hmiss a (by simp)]
    exact ih fun x hx => hmiss x (by simp [hx])

/-! Claim theorems. -/

/-- C1: for every alert context and every reasoning-step behavior (always
requesting tools, never requesting tools, alternating, or even raising),
the investigation loop started by `run_investigation` terminates within
`MAX_ITERATIONS + 1` cycles (the fuel `MAX_ITERATIONS + 1` is never
exhausted and the trace of completed agent steps is no longer than that),
and after every increment of the iteration counter the invariant
`iteration ≤ max_iterations` holds. -/
theorem investigation_loop_terminates (env : Env) (iid oid : String)
    (alert : AlertContext) :
    (runLoop env (MAX_ITERATIONS + 1) (initialState iid oid alert)).isSome = true
    ∧ ∀ tr r,
        runLoop env (MAX_ITERATIONS + 1) (initialState iid oid alert) = some (tr, r) →
        tr.length ≤ MAX_ITERATIONS + 1
        ∧ ∀ t ∈ tr, t.iteration ≤ t.maxIterations := by
  constructor
  · exact runLoop_isSome env (MAX_ITERATIONS + 1) _ (by omega)
      (by simp [initialState, MAX_ITERATIONS])
  · intro tr r h
    exact ⟨runLoop_length_le env _ _ tr r h,
      runLoop_iter_le env _ _ tr r h (by simp [initialState, MAX_ITERATIONS])⟩

/-- Witness for C1 at the run whose reasoning step answers immediately. -/
theorem investigation_loop_terminates_witness :
    (runLoop envFinal (MAX_ITERATIONS + 1) sampleState).isSome = true
    ∧ [sampleFinal].length ≤ MAX_ITERATIONS + 1
    ∧ sampleFinal.iteration ≤ sampleFinal.maxIterations := by
  have h := investigation_loop_terminates envFinal "inv-1" "org-1" sampleAlert
  have h2 := h.2 [sampleFinal] (.ok sampleFinal) rfl
  exact ⟨h.1, h2.1, h2.2 sampleFinal (by simp)⟩

/-- C2: the phase advancement computed by `agent_node` is the pure
function `advancePhase` of the current phase and the iteration count the
node reads (the post-increment count produced by the previous cycle),
with the transition table triage →(iteration ≥ 2) changes →(iteration ≥ 5)
hypothesis →(iteration ≥ 10) conclusion, conclusion terminal; and along
any run the observed phases never regress. -/
theorem phase_schedule (env : Env) (i : Nat) :
    (advancePhase .triage i = if 2 ≤ i then .changes else .triage)
    ∧ (advancePhase .changes i = if 5 ≤ i then .hypothesis else .changes)
    ∧ (advancePhase .hypothesis i = if 10 ≤ i then .conclusion else .hypothesis)
    ∧ (advancePhase .conclusion i = .conclusion)
    ∧ (∀ s s1, agent_node env s = .ok s1 →
        s1.phase = advancePhase s.phase s.iteration)
    ∧ (∀ fuel s tr r, runLoop env fuel s = some (tr, r) →
        List.Chain' (fun a b => a.phase.idx ≤ b.phase.idx) (s :: tr)) := by
  refine ⟨?_, ?_, ?_, ?_, ?_, ?_⟩
  · by_cases h : 2 ≤ i <;> simp [advancePhase, h]
  · by_cases h : 5 ≤ i <;> simp [advancePhase, h]
  · by_cases h : 10 ≤ i <;> simp [advancePhase, h]
  · simp [advancePhase]
  · intro s s1 hok
    obtain ⟨c, tcs, _, rfl⟩ := agent_node_ok hok
    rfl
  · exact fun fuel s tr r h => runLoop_phase_chain env fuel s tr r h

/-- Witness for C2 at the threshold and at the sample run. -/
theorem phase_schedule_witness :
    advancePhase .triage 2 = .changes
    ∧ sampleFinal.phase = advancePhase sampleState.phase sampleState.iteration
    ∧ List.Chain' (fun a b => a.phase.idx ≤ b.phase.idx)
        (sampleState :: [sampleFinal]) := by
  have h := phase_schedule envFinal 2
  refine ⟨by simpa using h.1, ?_, ?_⟩
  · exact h.2.2.2.2.1 sampleState sampleFinal rfl
  · exact h.2.2.2.2.2 (MAX_ITERATIONS + 1) sampleState [sampleFinal]
      (.ok sampleFinal) rfl

/-- C3: when the last produced message is an assistant message (as it is
after every reasoning step, since `agent_node` appends its response), the
router stops the loop exactly when the iteration budget is reached or the
message carries no tool calls, and a tool-call-bearing assistant message
below the budget always routes to tool dispatch. -/
theorem termination_check (s : AgentState) (c : String) (tcs : List ToolCall)
    (h : s.messages.getLast? = some (.ai c tcs)) :
    (should_continue s = Route.stop ↔
      s.maxIterations ≤ s.iteration ∨ tcs = [])
    ∧ (tcs ≠ [] → s.iteration < s.maxIterations →
        should_continue s = Route.tools)
    ∧ (∀ s' : AgentState,
        (agentUpdate s' (.ai c tcs)).messages.getLast? = some (.ai c tcs)) := by
  have hlast : lastIsToolCallingAI s.messages = !tcs.isEmpty := by
    simp [lastIsToolCallingAI, h]
  refine ⟨?_, ?_, ?_⟩
  · rw [should_continue_eq_stop_iff, hlast]
    simp [List.isEmpty_iff]
  · intro hne hlt
    rw [should_continue_eq_tools_iff, hlast]
    simp [List.isEmpty_iff, hne, hlt]
  · intro s'
    show (s'.messages ++ [Message.ai c tcs]).getLast? = some (Message.ai c tcs)
    exact List.getLast?_concat _

/-- Witness for C3 at two concrete post-step states: one whose last
message is a final assistant message (the router stops) and one whose last
message carries a tool call below the budget (the router dispatches). -/
theorem termination_check_witness :
    (should_continue sampleFinal = Route.stop ↔
      sampleFinal.maxIterations ≤ sampleFinal.iteration ∨ ([] : List ToolCall) = [])
    ∧ should_continue sampleTools = Route.tools
    ∧ (agentUpdate sampleState (.ai sampleAnswer [])).messages.getLast?
        = some (.ai sampleAnswer []) := by
  have h1 := termination_check sampleFinal sampleAnswer []
    (by simp [sampleFinal, agentUpdate])
  have h2 := termination_check sampleTools "checking deployments"
    [⟨"get_recent_deployments"⟩] (by simp [sampleTools, agentUpdate])
  exact ⟨h1.1, h2.2.1 (by simp) (by decide), h1.2.2 sampleState⟩

/-- C4 counterexample: with an accumulated list already holding 20
distinct records, merging a payload that repeats one absent record twice
yields zero occurrences of that record, not exactly one — the final
truncation to the first 20 entries drops the deduplicated append. -/
theorem merge_same_record_twice_cx :
    ((tools_node fullState
        [Message.toolResult "r" (some [freshDeployment, freshDeployment])]
      ).recentDeployments.count freshDeployment = 0)
    ∧ fullState.recentDeployments.Nodup
    ∧ freshDeployment ∉ fullState.recentDeployments
    ∧ fullState.recentDeployments.length = 20 := by decide

/-- C4 amended: merging the same deployment record twice never produces
more than one occurrence; when the duplicate-free accumulated list has
fewer than 20 entries the record occurs exactly once afterwards; and a
record already present is never appended again — the merge returns the
accumulated list unchanged. -/
theorem merge_same_record_twice (s : AgentState) (d : Deployment) (c : String)
    (hnd : s.recentDeployments.Nodup) (hlen : s.recentDeployments.length ≤ 20) :
    ((tools_node s [Message.toolResult c (some [d, d])]
      ).recentDeployments.count d ≤ 1)
    ∧ (s.recentDeployments.length < 20 →
        (tools_node s [Message.toolResult c (some [d, d])]
          ).recentDeployments.count d = 1)
    ∧ (d ∈ s.recentDeployments →
        (tools_node s [Message.toolResult c (some [d, d])]
          ).recentDeployments = s.recentDeployments) := by
  have hm : (tools_node s [Message.toolResult c (some [d, d])]).recentDeployments
      = (if d ∈ s.recentDeployments then s.recentDeployments
         else s.recentDeployments ++ [d]).take 20 := by
    rw [tools_node_recentDeployments]
    have : foldPayloads s.recentDeployments [Message.toolResult c (some [d, d])]
        = if d ∈ s.recentDeployments then s.recentDeployments
          else s.recentDeployments ++ [d] := by
      simp only [foldPayloads, List.foldl, Message.toolPayload, mergeDeployments]
      by_cases hd : d ∈ s.recentDeployments <;> simp [hd]
    rw [this]
  by_cases hd : d ∈ s.recentDeployments
  · rw [hm]
    simp only [hd, if_true]
    rw [List.take_of_length_le hlen]
    have hcount : s.recentDeployments.count d = 1 :=
      List.count_eq_one_of_mem hnd hd
    exact ⟨by omega, fun _ => hcount, fun _ => rfl⟩
  · rw [hm]
    simp only [hd, if_false]
    rcases lt_or_eq_of_le hlen with hlt | heq
    · rw [List.take_of_length_le (by simp; omega)]
      have hone : (s.recentDeployments ++ [d]).count d = 1 := by
        rw [List.count_append]
        simp [List.count_eq_zero_of_not_mem hd]
      exact ⟨by omega, fun _ => hone, fun hmem => hmem.elim⟩
    · rw [List.take_left' heq]
      have hzero : s.recentDeployments.count d = 0 :=
        List.count_eq_zero_of_not_mem hd
      exact ⟨by omega, fun hlt => absurd heq (by omega),
        fun hmem => hmem.elim⟩

/-- Witness for C4 amended at a below-cap accumulated list. -/
theorem merge_same_record_twice_witness :
    ((tools_node sampleState
        [Message.toolResult "r" (some [freshDeployment, freshDeployment])]
      ).recentDeployments.count freshDeployment ≤ 1)
    ∧ ((tools_node sampleState
        [Message.toolResult "r" (some [freshDeployment, freshDeployment])]
      ).recentDeployments.count freshDeployment = 1) := by
  have h := merge_same_record_twice sampleState freshDeployment "r"
    (by decide) (by decide)
  exact ⟨h.1, h.2.1 (by decide)⟩

/-- C5 counterexample: the truncation keeps the FIRST 20 accumulated
entries, not the most recent 20.  Merging 20 old records and then 5
strictly fresher ones (25 distinct records in total) leaves the result
equal to the 20 old records; the freshest record of all is absent even
though it is more recent than every retained record. -/
theorem merge_most_recent_cx :
    ((tools_node (tools_node sampleState [Message.toolResult "r1" (some oldBatch)])
        [Message.toolResult "r2" (some newBatch)]).recentDeployments = oldBatch)
    ∧ (oldBatch ++ newBatch).Nodup
    ∧ (oldBatch ++ newBatch).length = 25
    ∧ freshDeployment ∈ newBatch
    ∧ freshDeployment ∉ oldBatch
    ∧ (oldBatch.all fun e => freshDeployment.minutesAgo < e.minutesAgo) = true := by
  decide

/-- C5 amended: after each merge the accumulated list is truncated to its
first 20 entries in accumulation order (previously accumulated entries
first, newly discovered ones after).  Merging a payload of 25 distinct
records into an empty accumulation therefore yields exactly the payload's
first 20 entries; these are the 20 most recent ones when the payload is
ordered newest-first (as `get_recent_deployments` produces it): every kept
record is then at least as recent as every dropped one. -/
theorem merge_keeps_first_twenty (s : AgentState) (ds : List Deployment)
    (c : String) (hnd : ds.Nodup) (hlen : ds.length = 25)
    (hempty : s.recentDeployments = []) :
    ((tools_node s [Message.toolResult c (some ds)]).recentDeployments
      = ds.take 20)
    ∧ ((tools_node s [Message.toolResult c (some ds)]).recentDeployments.length
      = 20)
    ∧ (List.Pairwise (fun a b => a.minutesAgo ≤ b.minutesAgo) ds →
        ∀ x ∈ (tools_node s [Message.toolResult c (some ds)]).recentDeployments,
        ∀ y ∈ ds,
          y ∉ (tools_node s [Message.toolResult c (some ds)]).recentDeployments →
          x.minutesAgo ≤ y.minutesAgo) := by
  have hres : (tools_node s [Message.toolResult c (some ds)]).recentDeployments
      = ds.take 20 := by
    rw [tools_node_recentDeployments]
    simp only [foldPayloads, List.foldl, Message.toolPayload]
    rw [hempty, mergeDeployments_of_nodup ds [] (by simpa using hnd)]
    simp
  refine ⟨hres, by rw [hres, List.length_take, hlen]; rfl, ?_⟩
  intro hpw x hx y hy hyn
  rw [hres] at hx hyn
  have hpw2 : List.Pairwise (fun a b => a.minutesAgo ≤ b.minutesAgo)
      (ds.take 20 ++ ds.drop 20) := by
    rw [List.take_append_drop]; exact hpw
  have hy2 : y ∈ ds.take 20 ++ ds.drop 20 := by
    rw [List.take_append_drop]; exact hy
  have hy' : y ∈ ds.drop 20 := by
    rcases List.mem_append.mp hy2 with hmem | hmem
    · exact absurd hmem hyn
    · exact hmem
  exact (List.pairwise_append.mp hpw2).2.2 x hx y hy'

/-- Witness for C5 amended at a concrete newest-first payload of 25
distinct records. -/
theorem merge_keeps_first_twenty_witness :
    ((tools_node sampleState
        [Message.toolResult "r" (some (newBatch ++ oldBatch))]).recentDeployments
      = (newBatch ++ oldBatch).take 20)
    ∧ ((tools_node sampleState
        [Message.toolResult "r" (some (newBatch ++ oldBatch))]
      ).recentDeployments.length = 20) := by
  have h := merge_keeps_first_twenty sampleState (newBatch ++ oldBatch) "r"
    (by decide) (by decide) (by decide)
  exact ⟨h.1, h.2.1⟩

/-- C6: every tool created with `credentials=None` short-circuits on its
credential gate for all arguments, returning the structured result with
`success:false` whose error text contains "not configured"; no external
call is attempted.  The embedded tools are total functions, matching the
source's try/except boundary through which no exception escapes. -/
theorem tools_degrade_without_credentials :
    (∀ api mid, get_monitor_details none api mid = datadogNotConfigured)
    ∧ (∀ api sn en mb, get_apm_service_summary none api sn en mb = datadogNotConfigured)
    ∧ (∀ api q mb, query_metrics none api q mb = datadogNotConfigured)
    ∧ (∀ api q mb lim, search_logs none api q mb lim = datadogNotConfigured)
    ∧ (∀ api hb tags, get_datadog_events none api hb tags = datadogNotConfigured)
    ∧ (∀ api ow re hb en, get_recent_deployments none api ow re hb en = githubNotConfigured)
    ∧ (∀ api ow re sh ct, get_deployment_commits none api ow re sh ct = githubNotConfigured)
    ∧ (∀ api ow re hb br, get_recent_commits none api ow re hb br = githubNotConfigured)
    ∧ (∀ api su, send_investigation_result none api su = slackNotConfigured)
    ∧ (∀ api me ph, send_investigation_update none api me ph = slackNotConfigured)
    ∧ datadogNotConfigured.success = false
    ∧ githubNotConfigured.success = false
    ∧ slackNotConfigured.success = false
    ∧ notConfiguredMark.toList <:+: (datadogNotConfigured.error.getD "").toList
    ∧ notConfiguredMark.toList <:+: (githubNotConfigured.error.getD "").toList
    ∧ notConfiguredMark.toList <:+: (slackNotConfigured.error.getD "").toList :=
  ⟨fun _ _ => rfl, fun _ _ _ _ => rfl, fun _ _ _ => rfl, fun _ _ _ _ => rfl,
   fun _ _ _ => rfl, fun _ _ _ _ _ => rfl, fun _ _ _ _ _ => rfl,
   fun _ _ _ _ _ => rfl, fun _ _ => rfl, fun _ _ _ => rfl,
   rfl, rfl, rfl, by decide, by decide, by decide⟩

/-- C7: `run_investigation` returns a failure object exactly when an
exception escaped the reasoning step or the orchestrator (the graph run
produced an error); the failure object carries an error text and the
duration and no summary.  A graph run that completes — including by
exhausting the iteration budget — always yields `success:true` with the
final phase and a summary, so budget exhaustion is not an error path. -/
theorem run_investigation_failure_semantics (env : Env) (iid oid : String)
    (alert : AlertContext) (dur : Nat) :
    ((run_investigation env iid oid alert dur).success = false ↔
      ∃ tr e, runLoop env (MAX_ITERATIONS + 1) (initialState iid oid alert)
        = some (tr, Except.error e))
    ∧ ((run_investigation env iid oid alert dur).success = false →
        (run_investigation env iid oid alert dur).summary = none
        ∧ (run_investigation env iid oid alert dur).error.isSome = true
        ∧ (run_investigation env iid oid alert dur).durationMs = dur)
    ∧ (∀ tr fin,
        runLoop env (MAX_ITERATIONS + 1) (initialState iid oid alert)
          = some (tr, Except.ok fin) →
        (run_investigation env iid oid alert dur).success = true
        ∧ (run_investigation env iid oid alert dur).finalPhase = some fin.phase
        ∧ (run_investigation env iid oid alert dur).summary
            = some (extractSummary fin.messages)) := by
  have hs := runLoop_isSome env (MAX_ITERATIONS + 1) (initialState iid oid alert)
    (by omega) (by simp [initialState, MAX_ITERATIONS])
  rw [Option.isSome_iff_exists] at hs
  obtain ⟨⟨tr0, r0⟩, hsome⟩ := hs
  cases r0 with
  | error e0 =>
    have hrun : run_investigation env iid oid alert dur =
        { success := false, summary := none, error := some e0,
          deploymentsFound := none, toolCalls := none, finalPhase := none,
          durationMs := dur } := by
      simp only [run_investigation, hsome]
    refine ⟨?_, ?_, ?_⟩
    · rw [hrun]
      exact ⟨fun _ => ⟨tr0, e0, hsome⟩, fun _ => rfl⟩
    · rw [hrun]
      exact fun _ => ⟨rfl, rfl, rfl⟩
    · intro tr fin hok
      rw [hsome] at hok
      simp at hok
  | ok fin0 =>
    have hrun : run_investigation env iid oid alert dur =
        { success := true, summary := some (extractSummary fin0.messages),
          error := none, deploymentsFound := some fin0.recentDeployments,
          toolCalls := some fin0.iteration, finalPhase := some fin0.phase,
          durationMs := dur } := by
      simp only [run_investigation, hsome]
    refine ⟨?_, ?_, ?_⟩
    · rw [hrun]
      constructor
      · intro hfalse
        simp at hfalse
      · rintro ⟨tr, e, habs⟩
        rw [hsome] at habs
        simp at habs
    · rw [hrun]
      intro hfalse
      simp at hfalse
    · intro tr fin hok
      rw [hsome] at hok
      simp at hok
      obtain ⟨rfl, rfl⟩ := hok
      rw [hrun]
      exact ⟨rfl, rfl, rfl⟩

/-- Witness for C7: a reasoning step that raises makes the run fail with
no summary, the error kept, and the duration reported; the successful
sample run reports its final phase. -/
theorem run_investigation_failure_semantics_witness :
    ((run_investigation envBoom "inv-1" "org-1" sampleAlert 7).summary = none
      ∧ (run_investigation envBoom "inv-1" "org-1" sampleAlert 7).error.isSome = true
      ∧ (run_investigation envBoom "inv-1" "org-1" sampleAlert 7).durationMs = 7)
    ∧ ((run_investigation envFinal "inv-1" "org-1" sampleAlert 9).success = true
      ∧ (run_investigation envFinal "inv-1" "org-1" sampleAlert 9).finalPhase
          = some sampleFinal.phase
      ∧ (run_investigation envFinal "inv-1" "org-1" sampleAlert 9).summary
          = some (extractSummary sampleFinal.messages)) := by
  refine ⟨?_, ?_⟩
  · exact (run_investigation_failure_semantics envBoom "inv-1" "org-1"
      sampleAlert 7).2.1 (by rfl)
  · exact (run_investigation_failure_semantics envFinal "inv-1" "org-1"
      sampleAlert 9).2.2 [sampleFinal] sampleFinal rfl

/-- C8 counterexample: on a log whose only assistant message is shorter
than 50 characters, the claim requires the default "Investigation
complete." string; the deep-agent variant's scan
(src/apps/agent/src/graph.py) instead returns the content of the long
initial user message, because its filter accepts any message with a long
string content and no truthy tool_calls attribute, not only assistant
messages.  The top-level orchestrator's scan does return the default on
the same log. -/
theorem summary_scan_cx :
    appsExtractSummary sampleLog
      = "A Datadog alert has fired. Begin investigation of the checkout service latency regression now."
    ∧ extractSummary sampleLog = "Investigation complete."
    ∧ "A Datadog alert has fired. Begin investigation of the checkout service latency regression now."
        ≠ "Investigation complete."
    ∧ (sampleLog.all fun m =>
        match m with
        | .ai c _ => decide (c.length ≤ 50)
        | _ => true) = true := by decide

/-- C8 amended: the top-level orchestrator's synthesis scans the log in
reverse chronological order and returns the content of the first assistant
message with no tool calls and content longer than 50 characters, falling
back to "Investigation complete." when no message qualifies; the
deep-agent variant applies the same reverse scan and fallback but
qualifies any message (assistant or not) whose string content is longer
than 50 characters and whose tool_calls attribute is absent or falsy. -/
theorem summary_scan :
    (∀ (msgs l1 l2 : List Message) (m : Message) (c : String),
        msgs.reverse = l1 ++ m :: l2 →
        (∀ x ∈ l1, finalSummaryOf x = none) →
        finalSummaryOf m = some c →
        extractSummary msgs = c)
    ∧ (∀ msgs : List Message,
        (∀ x ∈ msgs, finalSummaryOf x = none) →
        extractSummary msgs = "Investigation complete.")
    ∧ (∀ (msgs l1 l2 : List Message) (m : Message) (c : String),
        msgs.reverse = l1 ++ m :: l2 →
        (∀ x ∈ l1, appsSummaryOf x = none) →
        appsSummaryOf m = some c →
        appsExtractSummary msgs = c)
    ∧ (∀ msgs : List Message,
        (∀ x ∈ msgs, appsSummaryOf x = none) →
        appsExtractSummary msgs = "Investigation complete.") := by
  refine ⟨?_, ?_, ?_, ?_⟩
  · intro msgs l1 l2 m c hrev hmiss hhit
    rw [extractSummary, hrev, findSome?_first_hit finalSummaryOf l1 l2 m c hmiss hhit]
    rfl
  · intro msgs hmiss
    rw [extractSummary, findSome?_eq_none_of_all finalSummaryOf msgs.reverse
      (fun x hx => hmiss x (List.mem_reverse.mp hx))]
    rfl
  · intro msgs l1 l2 m c hrev hmiss hhit
    rw [appsExtractSummary, hrev, findSome?_first_hit appsSummaryOf l1 l2 m c hmiss hhit]
    rfl
  · intro msgs hmiss
    rw [appsExtractSummary, findSome?_eq_none_of_all appsSummaryOf msgs.reverse
      (fun x hx => hmiss x (List.mem_reverse.mp hx))]
    rfl

/-- Witness for C8 amended at a one-message log with a long final
assistant answer and at the log of the counterexample shape. -/
theorem summary_scan_witness :
    extractSummary [Message.ai sampleAnswer []] = sampleAnswer
    ∧ extractSummary [Message.ai "Ack." []] = "Investigation complete." := by
  constructor
  · exact summary_scan.1 [Message.ai sampleAnswer []] [] []
      (Message.ai sampleAnswer []) sampleAnswer (by decide) (by simp) (by decide)
  · exact summary_scan.2.1 [Message.ai "Ack." []] (by decide)

/-- C9: `affected_services` is written exactly once, when
`run_investigation` seeds the initial state with the singleton list of the
alert's service (or the empty list when the key is absent or falsy);
neither the agent node nor the tools node writes the field, so every
observed state and the final state carry the seeded value. -/
theorem affected_services_frame (env : Env) (iid oid : String)
    (alert : AlertContext) (fuel : Nat) (tr : List AgentState)
    (r : Except String AgentState)
    (h : runLoop env fuel (initialState iid oid alert) = some (tr, r)) :
    (initialState iid oid alert).affectedServices = seedAffected alert.service
    ∧ (∀ s m, (agentUpdate s m).affectedServices = s.affectedServices)
    ∧ (∀ s msgs, (tools_node s msgs).affectedServices = s.affectedServices)
    ∧ (∀ t ∈ tr, t.affectedServices = seedAffected alert.service)
    ∧ (∀ fin, r = Except.ok fin →
        fin.affectedServices = seedAffected alert.service) := by
  have hpres := runLoop_preserves env
    (fun t => t.affectedServices = seedAffected alert.service)
    (fun s m hp => (show (agentUpdate s m).affectedServices = s.affectedServices from rfl).trans hp)
    (fun s msgs hp => (show (tools_node s msgs).affectedServices = s.affectedServices from rfl).trans hp)
    fuel (initialState iid oid alert) tr r h rfl
  exact ⟨rfl, fun _ _ => rfl, fun _ _ => rfl, hpres.1, hpres.2⟩

/-- Witness for C9 at the sample run: the final state still carries the
seeded singleton list. -/
theorem affected_services_frame_witness :
    sampleFinal.affectedServices = ["checkout"] :=
  (affected_services_frame envFinal "inv-1" "org-1" sampleAlert
      (MAX_ITERATIONS + 1) [sampleFinal] (.ok sampleFinal) rfl).2.2.2.1
    sampleFinal (by simp)

/-- C10: every tools-node merge keeps the accumulated deployment list at
or below 20 entries, preserves the previously accumulated entries in
order as a prefix of the result, and once the list holds 20 entries any
further merge returns it unchanged, silently discarding newly discovered
records; consequently every state of any run started from an initial
state satisfies the 20-entry bound. -/
theorem deployments_cap (s : AgentState) (msgs : List Message)
    (hlen : s.recentDeployments.length ≤ 20) :
    ((tools_node s msgs).recentDeployments.length ≤ 20)
    ∧ (s.recentDeployments <+: (tools_node s msgs).recentDeployments)
    ∧ (s.recentDeployments.length = 20 →
        (tools_node s msgs).recentDeployments = s.recentDeployments)
    ∧ (∀ env iid oid alert fuel tr r,
        runLoop env fuel (initialState iid oid alert) = some (tr, r) →
        (∀ t ∈ tr, t.recentDeployments.length ≤ 20)
        ∧ (∀ fin, r = Except.ok fin → fin.recentDeployments.length ≤ 20)) := by
  refine ⟨?_, ?_, ?_, ?_⟩
  · rw [tools_node_recentDeployments]
    exact List.length_take_le 20 _
  · exact prefix_take_of_le (foldPayloads_starts_with msgs s.recentDeployments) hlen
  · intro h20
    obtain ⟨t, ht⟩ := foldPayloads_starts_with msgs s.recentDeployments
    rw [tools_node_recentDeployments, ← ht, List.take_left' h20]
  · intro env iid oid alert fuel tr r h
    exact runLoop_preserves env (fun t => t.recentDeployments.length ≤ 20)
      (fun s' m hp => hp)
      (fun s' msgs' _ => by
        show (tools_node s' msgs').recentDeployments.length ≤ 20
        rw [tools_node_recentDeployments]
        exact List.length_take_le 20 _)
      fuel (initialState iid oid alert) tr r h (by simp [initialState])

/-- Witness for C10 at the capped sample state: a merge bringing five
fresh records leaves the full list untouched. -/
theorem deployments_cap_witness :
    ((tools_node fullState [Message.toolResult "r2" (some newBatch)]
      ).recentDeployments.length ≤ 20)
    ∧ (fullState.recentDeployments <+:
        (tools_node fullState [Message.toolResult "r2" (some newBatch)]
          ).recentDeployments)
    ∧ ((tools_node fullState [Message.toolResult "r2" (some newBatch)]
        ).recentDeployments = fullState.recentDeployments) := by
  have h := deployments_cap fullState [Message.toolResult "r2" (some newBatch)]
    (by decide)
  exact ⟨h.1, h.2.1, h.2.2.1 (by decide)⟩

end Scout
